import Mathlib

/-!
Shallow embedding of the device-identity and payload-authentication module
(device identity management for gateway pairing, TypeScript source):
Ed25519 device identity persistence, SHA-256 fingerprinting of the raw
public key, and the canonical delimiter-joined authorization payload.

Modelling conventions:
* Bytes are `Nat` values below 256; byte strings are `List Nat`.
* The JSON documents the module reads and writes are modelled by the
  inductive `Json`; `JSON.parse` on a file the module itself wrote is
  modelled as the identity on the stored `Json` value (the Node JSON
  library round-trips the documents this module produces), while a file
  whose text does not parse is modelled by the `invalidJson` file state.
* Node library calls (`fs`, `crypto.generateKeyPairSync`, `Date.now`)
  are modelled by explicit state passing through a `World` record; a
  thrown exception is modelled by `Option`/`Except` failure.
* `crypto.createPublicKey(pem).export(der)` is modelled as PEM framing
  plus base64 decoding of the body (the DER bytes of the key encoding).
-/

set_option maxRecDepth 100000

/-- JSON values, as produced by `JSON.parse`. Numbers are modelled as
integers, which covers every number this module stores or tests. -/
inductive Json where
  | null : Json
  | bool : Bool → Json
  | num : Int → Json
  | str : String → Json
  | arr : List Json → Json
  | obj : List (String × Json) → Json

/-- Property access `v.key` on a parsed JSON value: a lookup that yields
`none` (JavaScript `undefined`) unless `v` is an object with the field. -/
def jsonLookup (v : Json) (key : String) : Option Json :=
  match v with
  | .obj fields => fields.lookup key
  | _ => none

/-- JavaScript truthiness of a JSON value: `null`, `false`, `0` and the
empty string are falsy, every other value is truthy. -/
def jsTruthy : Json → Bool
  | .null => false
  | .bool b => b
  | .num n => n != 0
  | .str s => s ≠ ""
  | .arr _ => true
  | .obj _ => true

/-- Truthiness of a property access: a missing field (`undefined`) is
falsy. -/
def jsTruthyOpt : Option Json → Bool
  | none => false
  | some v => jsTruthy v

/-- Decode one character of the standard base64 alphabet. -/
def b64DecodeChar (c : Char) : Option Nat :=
  if 'A' ≤ c ∧ c ≤ 'Z' then some (c.toNat - 65)
  else if 'a' ≤ c ∧ c ≤ 'z' then some (c.toNat - 97 + 26)
  else if '0' ≤ c ∧ c ≤ '9' then some (c.toNat - 48 + 52)
  else if c = '+' then some 62
  else if c = '/' then some 63
  else none

/-- Decode base64 text four characters at a time, allowing `=` padding
only at the very end. Yields the decoded bytes or `none` on malformed
input. -/
def b64DecodeGroups : List Char → Option (List Nat)
  | [] => some []
  | c0 :: c1 :: c2 :: c3 :: rest =>
    match b64DecodeChar c0, b64DecodeChar c1 with
    | some s0, some s1 =>
      if c2 = '=' then
        if c3 = '=' ∧ rest = [] then some [s0 * 4 + s1 / 16] else none
      else
        match b64DecodeChar c2 with
        | some s2 =>
          if c3 = '=' then
            if rest = [] then some [s0 * 4 + s1 / 16, (s1 % 16) * 16 + s2 / 4]
            else none
          else
            match b64DecodeChar c3, b64DecodeGroups rest with
            | some s3, some tail =>
              some ((s0 * 4 + s1 / 16) :: ((s1 % 16) * 16 + s2 / 4) ::
                    ((s2 % 4) * 64 + s3) :: tail)
            | _, _ => none
        | none => none
    | _, _ => none
  | _ => none

/-- Decode a base64 string to bytes. -/
def b64Decode (s : String) : Option (List Nat) :=
  b64DecodeGroups s.data

/-- Header line of a PEM public-key block. -/
def pemPublicKeyBegin : String := "-----BEGIN PUBLIC KEY-----"

/-- Footer line of a PEM public-key block. -/
def pemPublicKeyEnd : String := "-----END PUBLIC KEY-----"

/-- Split a character list at newline characters. -/
def splitLinesAux (cur : List Char) : List Char → List String
  | [] => [String.mk cur.reverse]
  | c :: rest =>
    if c = '\n' then String.mk cur.reverse :: splitLinesAux [] rest
    else splitLinesAux (cur.cons c) rest

/-- Split a string into its newline-separated lines. -/
def splitLines (s : String) : List String := splitLinesAux [] s.data

/-- Model of `crypto.createPublicKey(pem).export(type: spki, format: der)`:
strip the PEM header and footer lines and base64-decode the body into the
DER bytes of the SubjectPublicKeyInfo encoding. `none` models the thrown
exception on text that is not a PEM public-key block. -/
def pemToSpkiDer (pem : String) : Option (List Nat) :=
  match (splitLines pem).filter (fun line => line ≠ "") with
  | first :: rest =>
    if first = pemPublicKeyBegin then
      match rest.getLast? with
      | some last =>
        if last = pemPublicKeyEnd then
          b64DecodeGroups ((rest.dropLast).foldr (fun line acc => line.data ++ acc) [])
        else none
      | none => none
    else none
  | [] => none

/-! ## SHA-256 (FIPS 180-4), over byte lists -/

/-- Truncate to a 32-bit word. -/
def w32 (n : Nat) : Nat := n % 4294967296

/-- Rotate a 32-bit word right by `n` bits. -/
def rotr32 (n x : Nat) : Nat := w32 ((x >>> n) ||| (x <<< (32 - n)))

/-- SHA-256 choice function. -/
def sha256Ch (x y z : Nat) : Nat := (x &&& y) ^^^ ((x ^^^ 4294967295) &&& z)

/-- SHA-256 majority function. -/
def sha256Maj (x y z : Nat) : Nat := (x &&& y) ^^^ (x &&& z) ^^^ (y &&& z)

/-- SHA-256 Σ0. -/
def bigSigma0 (x : Nat) : Nat := rotr32 2 x ^^^ rotr32 13 x ^^^ rotr32 22 x

/-- SHA-256 Σ1. -/
def bigSigma1 (x : Nat) : Nat := rotr32 6 x ^^^ rotr32 11 x ^^^ rotr32 25 x

/-- SHA-256 σ0. -/
def smallSigma0 (x : Nat) : Nat := rotr32 7 x ^^^ rotr32 18 x ^^^ (x >>> 3)

/-- SHA-256 σ1. -/
def smallSigma1 (x : Nat) : Nat := rotr32 17 x ^^^ rotr32 19 x ^^^ (x >>> 10)

/-- The 64 SHA-256 round constants (FIPS 180-4 section 4.2.2, written in
decimal). -/
def SHA256_K : List Nat :=
  [1116352408, 1899447441, 3049323471, 3921009573, 961987163, 1508970993,
   2453635748, 2870763221, 3624381080, 310598401, 607225278, 1426881987,
   1925078388, 2162078206, 2614888103, 3248222580, 3835390401, 4022224774,
   264347078, 604807628, 770255983, 1249150122, 1555081692, 1996064986,
   2554220882, 2821834349, 2952996808, 3210313671, 3336571891, 3584528711,
   113926993, 338241895, 666307205, 773529912, 1294757372, 1396182291,
   1695183700, 1986661051, 2177026350, 2456956037, 2730485921, 2820302411,
   3259730800, 3345764771, 3516065817, 3600352804, 4094571909, 275423344,
   430227734, 506948616, 659060556, 883997877, 958139571, 1322822218,
   1537002063, 1747873779, 1955562222, 2024104815, 2227730452, 2361852424,
   2428436474, 2756734187, 3204031479, 3329325298]

/-- The eight SHA-256 working registers. -/
structure Sha256Regs where
  a : Nat
  b : Nat
  c : Nat
  d : Nat
  e : Nat
  f : Nat
  g : Nat
  h : Nat

/-- SHA-256 initial hash value (FIPS 180-4 section 5.3.3, in decimal). -/
def sha256Init : Sha256Regs :=
  ⟨1779033703, 3144134277, 1013904242, 2773480762,
   1359893119, 2600822924, 528734635, 1541459225⟩

/-- Group bytes into big-endian 32-bit words. -/
def bytesToWords : List Nat → List Nat
  | b0 :: b1 :: b2 :: b3 :: rest =>
    (((b0 * 256 + b1) * 256 + b2) * 256 + b3) :: bytesToWords rest
  | _ => []

/-- Extend a message schedule by one word. -/
def scheduleStep (ws : List Nat) : List Nat :=
  let n := ws.length
  ws ++ [w32 (smallSigma1 (ws.getD (n - 2) 0) + ws.getD (n - 7) 0 +
              smallSigma0 (ws.getD (n - 15) 0) + ws.getD (n - 16) 0)]

/-- The 64-word message schedule of one block (first 16 words given). -/
def sha256Schedule (first16 : List Nat) : List Nat :=
  (List.range 48).foldl (fun ws _ => scheduleStep ws) first16

/-- One SHA-256 compression round, consuming a round constant paired with
a schedule word. -/
def sha256Round (r : Sha256Regs) (kw : Nat × Nat) : Sha256Regs :=
  let t1 := w32 (r.h + bigSigma1 r.e + sha256Ch r.e r.f r.g + kw.1 + kw.2)
  let t2 := w32 (bigSigma0 r.a + sha256Maj r.a r.b r.c)
  ⟨w32 (t1 + t2), r.a, r.b, r.c, w32 (r.d + t1), r.e, r.f, r.g⟩

/-- Compress one 64-byte block into the running hash value. -/
def sha256Block (H : Sha256Regs) (block : List Nat) : Sha256Regs :=
  let ws := sha256Schedule (bytesToWords block)
  let r := (SHA256_K.zip ws).foldl sha256Round H
  ⟨w32 (H.a + r.a), w32 (H.b + r.b), w32 (H.c + r.c), w32 (H.d + r.d),
   w32 (H.e + r.e), w32 (H.f + r.f), w32 (H.g + r.g), w32 (H.h + r.h)⟩

/-- Fold the compression function over the first `n` 64-byte blocks of a
padded message (structural recursion on the block count, so that the
kernel can evaluate digests). -/
def sha256BlocksN (H : Sha256Regs) (bs : List Nat) : Nat → Sha256Regs
  | 0 => H
  | n + 1 => sha256BlocksN (sha256Block H (bs.take 64)) (bs.drop 64) n

/-- A natural number as 8 big-endian bytes (the message bit length). -/
def lenBytes8 (n : Nat) : List Nat :=
  [(n >>> 56) % 256, (n >>> 48) % 256, (n >>> 40) % 256, (n >>> 32) % 256,
   (n >>> 24) % 256, (n >>> 16) % 256, (n >>> 8) % 256, n % 256]

/-- SHA-256 message padding: append `0x80`, zeros to 56 mod 64, then the
bit length as 8 big-endian bytes. -/
def sha256Pad (msg : List Nat) : List Nat :=
  let L := msg.length
  msg ++ [128] ++ List.replicate ((119 - L % 64) % 64) 0 ++ lenBytes8 (8 * L)

/-- A 32-bit word as 4 big-endian bytes. -/
def word4Bytes (n : Nat) : List Nat :=
  [(n >>> 24) % 256, (n >>> 16) % 256, (n >>> 8) % 256, n % 256]

/-- SHA-256 digest of a byte list, as 32 bytes. -/
def sha256 (msg : List Nat) : List Nat :=
  let padded := sha256Pad msg
  let r := sha256BlocksN sha256Init padded (padded.length / 64)
  word4Bytes r.a ++ word4Bytes r.b ++ word4Bytes r.c ++ word4Bytes r.d ++
  word4Bytes r.e ++ word4Bytes r.f ++ word4Bytes r.g ++ word4Bytes r.h

/-- Render bytes as lowercase hexadecimal, two digits per byte
(the Node `digest(hex)` encoding). -/
def hexDigitChar (d : Nat) : Char :=
  if d < 10 then Char.ofNat (48 + d) else Char.ofNat (87 + d)

/-- Lowercase hex rendering of a byte list. -/
def bytesToHex (bs : List Nat) : String :=
  String.mk (bs.foldr
    (fun b acc => hexDigitChar (b / 16 % 16) :: hexDigitChar (b % 16) :: acc) [])

/-- Lowercase hexadecimal digits. -/
def isHexLowerDigit (c : Char) : Bool :=
  (('0' ≤ c) && (c ≤ '9')) || (('a' ≤ c) && (c ≤ 'f'))

/-! ## Raw-key derivation and fingerprinting (lines 17, 25-38 of the
identity module) -/

/-- `ED25519_SPKI_PREFIX` of the source: the 12-byte DER header of an
Ed25519 SubjectPublicKeyInfo, hex `302a300506032b6570032100`. -/
def ED25519_SPKI_HEADER : List Nat :=
  [0x30, 0x2a, 0x30, 0x05, 0x06, 0x03, 0x2b, 0x65, 0x70, 0x03, 0x21, 0x00]

/-- The branch of `derivePublicKeyRaw` on the exported DER bytes
(source lines 27-31): strip the Ed25519 SPKI header when the buffer is
exactly header + 32 bytes with a matching header, otherwise return the
buffer unchanged. -/
def derivePublicKeyRawSpki (spki : List Nat) : List Nat :=
  if spki.length = ED25519_SPKI_HEADER.length + 32 ∧
     spki.take ED25519_SPKI_HEADER.length = ED25519_SPKI_HEADER
  then spki.drop ED25519_SPKI_HEADER.length
  else spki

/-- `derivePublicKeyRaw(publicKeyPem)`: export the key to DER and strip
the header. `none` models the exception thrown by `createPublicKey` on
text that is not a PEM public-key block. -/
def derivePublicKeyRaw (publicKeyPem : String) : Option (List Nat) :=
  (pemToSpkiDer publicKeyPem).map derivePublicKeyRawSpki

/-- `fingerprintPublicKey(publicKeyPem)`: lowercase-hex SHA-256 digest of
the raw public-key bytes; this is the deviceId. -/
def fingerprintPublicKey (publicKeyPem : String) : Option String :=
  (derivePublicKeyRaw publicKeyPem).map (fun raw => bytesToHex (sha256 raw))

/-- `fingerprintPublicKey` applied to a parsed JSON value: passing a
non-string to `createPublicKey` throws (`none`). -/
def fingerprintJson : Json → Option String
  | .str s => fingerprintPublicKey s
  | _ => none

/-! ## The identity store (lines 9-16 and 45-88 of the identity module) -/

/-- The in-memory `DeviceIdentity`. The TypeScript interface declares the
key fields as strings, but the load path returns the parsed JSON field
values unchecked, so the faithful runtime type of the key fields is a
JSON value; generated identities always carry strings. -/
structure DeviceIdentity where
  deviceId : String
  publicKeyPem : Json
  privateKeyPem : Json

/-- State of the identity file as the module observes it: absent
(`existsSync` false), unreadable (`readFileSync` throws), text that is
not JSON (`JSON.parse` throws), or a parsed JSON document. -/
inductive FileState where
  | absent
  | unreadable
  | invalidJson
  | content (parsed : Json)

/-- One recorded `writeFileSync`: the exact text and the file mode. -/
structure WriteRecord where
  text : String
  mode : Nat
  deriving DecidableEq

/-- Faults `loadOrCreateDeviceIdentity` can propagate to its caller.
`generateFailed` models a throw while generating or fingerprinting the
fresh key pair, `mkdirFailed` a `mkdirSync` throw, `writeFailed` a
`writeFileSync` throw. -/
inductive IdentityError where
  | generateFailed
  | mkdirFailed
  | writeFailed
  deriving DecidableEq

/-- The ambient state threaded through `loadOrCreateDeviceIdentity`: the
identity file, the key pair the next `generateKeyPairSync` would yield
(as exported PEM text), the clock, whether `mkdirSync` and
`writeFileSync` would succeed, and the last recorded write. -/
structure World where
  file : FileState
  genPublicKeyPem : String
  genPrivateKeyPem : String
  nowMs : Int
  mkdirOk : Bool
  writeOk : Bool
  written : Option WriteRecord

/-- The load phase of `loadOrCreateDeviceIdentity` (source lines 60-72):
read and parse the file, accept it only if `version === 1` and the three
fields `deviceId`, `publicKeyPem`, `privateKeyPem` are truthy, then
recompute the deviceId from the stored public key. `none` covers every
absorbed fault, including the exception `fingerprintPublicKey` throws on
key material that does not parse. -/
def loadIdentity (fs : FileState) : Option DeviceIdentity :=
  match fs with
  | .content parsed =>
    let versionIsOne : Bool :=
      match jsonLookup parsed "version" with
      | some (.num n) => n == 1
      | _ => false
    if versionIsOne && jsTruthyOpt (jsonLookup parsed "deviceId") &&
       jsTruthyOpt (jsonLookup parsed "publicKeyPem") &&
       jsTruthyOpt (jsonLookup parsed "privateKeyPem") then
      match fingerprintJson ((jsonLookup parsed "publicKeyPem").getD .null) with
      | some derivedId =>
        some ⟨derivedId, (jsonLookup parsed "publicKeyPem").getD .null,
              (jsonLookup parsed "privateKeyPem").getD .null⟩
      | none => none
    else none
  | _ => none

/-- `generateIdentity()` (source lines 46-55), with the key pair that
`crypto.generateKeyPairSync` would produce supplied explicitly: the
deviceId is the fingerprint of the fresh public key. -/
def generateIdentity (pubPem privPem : String) : Except IdentityError DeviceIdentity :=
  match fingerprintPublicKey pubPem with
  | some fp => .ok ⟨fp, .str pubPem, .str privPem⟩
  | none => .error .generateFailed

/-- The record object serialized on the create path (source lines 79-85):
field order `version`, `deviceId`, `publicKeyPem`, `privateKeyPem`,
`createdAtMs`. -/
def storedRecord (identity : DeviceIdentity) (nowMs : Int) : Json :=
  .obj [("version", .num 1),
        ("deviceId", .str identity.deviceId),
        ("publicKeyPem", identity.publicKeyPem),
        ("privateKeyPem", identity.privateKeyPem),
        ("createdAtMs", .num nowMs)]

/-- JSON string quoting as `JSON.stringify` performs it, covering the
escapes that can occur in the documents this module writes. -/
def jsonQuote (s : String) : String :=
  "\"" ++ String.mk (s.data.foldr
    (fun c acc =>
      if c = '"' then '\\' :: '"' :: acc
      else if c = '\\' then '\\' :: '\\' :: acc
      else if c = '\n' then '\\' :: 'n' :: acc
      else if c = '\r' then '\\' :: 'r' :: acc
      else if c = '\t' then '\\' :: 't' :: acc
      else c :: acc) []) ++ "\""

/-- `n` spaces of indentation. -/
def indentSpaces (n : Nat) : String := String.mk (List.replicate n ' ')

mutual

/-- `JSON.stringify(v, null, 2)` at indentation level `ind`. -/
def jsonStringifyAt (ind : Nat) : Json → String
  | .null => "null"
  | .bool true => "true"
  | .bool false => "false"
  | .num n => toString n
  | .str s => jsonQuote s
  | .arr [] => "[]"
  | .arr (x :: xs) =>
    "[\n" ++ jsonStringifyItems (ind + 2) (x :: xs) ++ "\n" ++ indentSpaces ind ++ "]"
  | .obj [] => "\x7b\x7d"
  | .obj (f :: fs) =>
    "\x7b\n" ++ jsonStringifyFields (ind + 2) (f :: fs) ++ "\n" ++ indentSpaces ind ++ "\x7d"

/-- Array elements, one per line, comma-separated. -/
def jsonStringifyItems (ind : Nat) : List Json → String
  | [] => ""
  | [x] => indentSpaces ind ++ jsonStringifyAt ind x
  | x :: y :: rest =>
    indentSpaces ind ++ jsonStringifyAt ind x ++ ",\n" ++ jsonStringifyItems ind (y :: rest)

/-- Object fields, one per line, comma-separated. -/
def jsonStringifyFields (ind : Nat) : List (String × Json) → String
  | [] => ""
  | [(k, v)] => indentSpaces ind ++ jsonQuote k ++ ": " ++ jsonStringifyAt ind v
  | (k, v) :: f :: rest =>
    indentSpaces ind ++ jsonQuote k ++ ": " ++ jsonStringifyAt ind v ++ ",\n" ++
    jsonStringifyFields ind (f :: rest)

end

/-- `JSON.stringify(v, null, 2)`. -/
def jsonStringify2 (v : Json) : String := jsonStringifyAt 0 v

/-- `loadOrCreateDeviceIdentity(filePath)` (source lines 58-88): try the
load phase, absorbing every fault there; on failure generate a fresh
identity, create the directory, serialize the record with a trailing
newline at file mode `0o600`, and return the fresh identity. Faults after
generation propagate as errors. -/
def loadOrCreateDeviceIdentity (w : World) :
    Except IdentityError (DeviceIdentity × World) :=
  match loadIdentity w.file with
  | some identity => .ok (identity, w)
  | none =>
    match generateIdentity w.genPublicKeyPem w.genPrivateKeyPem with
    | .error e => .error e
    | .ok identity =>
      if w.mkdirOk then
        if w.writeOk then
          let record := storedRecord identity w.nowMs
          .ok (identity,
               { w with file := .content record,
                        written := some ⟨jsonStringify2 record ++ "\n", 0o600⟩ })
        else .error .writeFailed
      else .error .mkdirFailed

/-! ## Canonical authorization payload (source lines 97-113) -/

/-- Parameters of `buildDeviceAuthPayload`. `token` is `string | null`;
`nonce` is an optional string. -/
structure DeviceAuthParams where
  deviceId : String
  clientId : String
  clientMode : String
  role : String
  scopes : List String
  signedAtMs : Int
  token : Option String
  nonce : Option String := none
  deriving DecidableEq

/-- JavaScript truthiness of an optional string (`params.nonce ? _ : _`):
a missing value and the empty string are falsy. -/
def jsTruthyStr : Option String → Bool
  | none => false
  | some s => s ≠ ""

/-- JavaScript `Array.join(sep)`: the empty array joins to the empty
string, otherwise the elements are interleaved with the separator. -/
def joinSep (sep : String) : List String → String
  | [] => ""
  | [x] => x
  | x :: y :: rest => x ++ sep ++ joinSep sep (y :: rest)

/-- The ordered field list `base` of `buildDeviceAuthPayload` (source
lines 107-111): version tag, identity and client fields, comma-joined
scopes, decimal timestamp, token with `null` encoded as the empty string,
and, exactly when the version is `v2`, the nonce as a trailing field. -/
def buildDeviceAuthFields (params : DeviceAuthParams) : List String :=
  let version := if jsTruthyStr params.nonce then "v2" else "v1"
  let scopeStr := joinSep "," params.scopes
  let token := params.token.getD ""
  let base := [version, params.deviceId, params.clientId, params.clientMode,
               params.role, scopeStr, toString params.signedAtMs, token]
  if version = "v2" then base ++ [params.nonce.getD ""] else base

/-- `buildDeviceAuthPayload(params)` (source line 112): the field list
joined with the `|` delimiter. -/
def buildDeviceAuthPayload (params : DeviceAuthParams) : String :=
  joinSep "|" (buildDeviceAuthFields params)

/-! ## Concrete fixtures used as witness inputs -/

/-- A sample Ed25519 SubjectPublicKeyInfo PEM block: the 12-byte DER
header followed by 32 zero key bytes, base64-encoded. -/
def samplePublicKeyPem : String :=
  "-----BEGIN PUBLIC KEY-----\nMCowBQYDK2VwAyEAAAAAAAAAAAAAAAAAAAAAAAAAAAAAAAAAAAAAAAAAAAA=\n-----END PUBLIC KEY-----\n"

/-- The fingerprint of `samplePublicKeyPem`: the SHA-256 digest of 32
zero bytes, in lowercase hex. -/
def sampleFingerprint : String :=
  "66687aadf862bd776c8fc18b8e9f8e20089714856ee233b3902a591d0d5f2925"

/-- A persisted record whose `deviceId` field was tampered with while the
public key was left untouched. -/
def sampleTamperedRecord : Json :=
  .obj [("version", .num 1), ("deviceId", .str "TAMPERED"),
        ("publicKeyPem", .str samplePublicKeyPem), ("privateKeyPem", .str "sk")]

/-- A world holding the tampered record. -/
def sampleTamperedWorld : World :=
  ⟨.content sampleTamperedRecord, "", "", 0, true, true, none⟩

/-- The identity the loader returns for the tampered record: the
recomputed fingerprint with the stored key material. -/
def sampleIdentity : DeviceIdentity :=
  ⟨sampleFingerprint, .str samplePublicKeyPem, .str "sk"⟩

/-- A first-run world: no identity file, a fresh key pair ready to be
generated, and a writable filesystem. -/
def sampleCreateWorld : World :=
  ⟨.absent, samplePublicKeyPem, "PRIVATE-KEY-PEM", 1700000000000, true, true, none⟩

/-- The identity and post-write world the create path produces from
`sampleCreateWorld`. -/
def sampleCreatedPair : DeviceIdentity × World :=
  match loadOrCreateDeviceIdentity sampleCreateWorld with
  | .ok p => p
  | .error _ => ⟨⟨"", .null, .null⟩, sampleCreateWorld⟩

/-! ## General lemmas about the embedded operations -/

/-- The eight hash words expand to a 32-byte digest. -/
theorem sha256_length (msg : List Nat) : (sha256 msg).length = 32 := by
  simp [sha256, word4Bytes]

/-- The character fold behind `bytesToHex` yields two characters per
byte. -/
theorem hexFold_length (bs : List Nat) :
    (bs.foldr (fun b acc => hexDigitChar (b / 16 % 16) :: hexDigitChar (b % 16) :: acc)
      []).length = 2 * bs.length := by
  induction bs with
  | nil => rfl
  | cons b t ih => simp only [List.foldr_cons, List.length_cons, ih]; omega

/-- Hex rendering yields two characters per byte. -/
theorem bytesToHex_length (bs : List Nat) : (bytesToHex bs).length = 2 * bs.length := by
  unfold bytesToHex
  rw [String.length_mk]
  exact hexFold_length bs

/-- `hexDigitChar` of a value below 16 is a lowercase hex digit. -/
theorem hexDigitChar_isHex : ∀ d : Nat, d < 16 → isHexLowerDigit (hexDigitChar d) = true := by
  decide

/-- Every character the `bytesToHex` fold emits is a lowercase hex
digit. -/
theorem hexFold_chars (bs : List Nat) :
    ∀ c ∈ bs.foldr
      (fun b acc => hexDigitChar (b / 16 % 16) :: hexDigitChar (b % 16) :: acc) [],
      isHexLowerDigit c = true := by
  induction bs with
  | nil => intro c hc; simp at hc
  | cons b t ih =>
    intro c hc
    simp only [List.foldr_cons, List.mem_cons] at hc
    rcases hc with h | h | h
    · subst h; exact hexDigitChar_isHex _ (Nat.mod_lt _ (by omega))
    · subst h; exact hexDigitChar_isHex _ (Nat.mod_lt _ (by omega))
    · exact ih c h

/-- Every character of a hex rendering is a lowercase hex digit. -/
theorem bytesToHex_chars (bs : List Nat) :
    ∀ c ∈ (bytesToHex bs).data, isHexLowerDigit c = true :=
  hexFold_chars bs

/-- A fingerprint is the 64-character hex digest of a 32-byte SHA-256
digest. -/
theorem fingerprintPublicKey_length {pem : String} {fp : String}
    (h : fingerprintPublicKey pem = some fp) : fp.length = 64 := by
  unfold fingerprintPublicKey at h
  cases hd : derivePublicKeyRaw pem with
  | none => rw [hd] at h; simp at h
  | some raw =>
    rw [hd] at h
    have hb : bytesToHex (sha256 raw) = fp := by simpa using h
    rw [← hb, bytesToHex_length, sha256_length]

/-- A fingerprint is never the empty string. -/
theorem fingerprintPublicKey_ne_empty {pem : String} {fp : String}
    (h : fingerprintPublicKey pem = some fp) : fp ≠ "" := by
  intro he
  have := fingerprintPublicKey_length h
  rw [he] at this
  simp [String.length] at this

/-- The empty string is not a PEM public-key block. -/
theorem fingerprintPublicKey_empty : fingerprintPublicKey "" = none := by decide

/-- Every character of a fingerprint is a lowercase hex digit. -/
theorem fingerprintPublicKey_chars {pem : String} {fp : String}
    (h : fingerprintPublicKey pem = some fp) :
    ∀ c ∈ fp.data, isHexLowerDigit c = true := by
  unfold fingerprintPublicKey at h
  cases hd : derivePublicKeyRaw pem with
  | none => rw [hd] at h; simp at h
  | some raw =>
    rw [hd] at h
    have hb : bytesToHex (sha256 raw) = fp := by simpa using h
    rw [← hb]
    exact bytesToHex_chars (sha256 raw)

/-- `joinSep` over a list with at least two elements unfolds one step. -/
theorem joinSep_cons (sep x : String) (rest : List String) (h : rest ≠ []) :
    joinSep sep (x :: rest) = x ++ sep ++ joinSep sep rest := by
  cases rest with
  | nil => exact absurd rfl h
  | cons y t => rfl

/-- Two joins that agree and differ only in the element at one fixed
position have equal elements there (the surrounding context cancels). -/
theorem joinSep_middle_inj (sep : String) (pre : List String) (s1 s2 : String)
    (suf : List String)
    (h : joinSep sep (pre ++ s1 :: suf) = joinSep sep (pre ++ s2 :: suf)) : s1 = s2 := by
  induction pre with
  | nil =>
    simp only [List.nil_append] at h
    cases suf with
    | nil => exact h
    | cons y t =>
      rw [joinSep_cons sep s1 (y :: t) (by simp), joinSep_cons sep s2 (y :: t) (by simp)] at h
      have hd := congrArg String.data h
      simp only [String.data_append, List.append_assoc] at hd
      exact String.ext (List.append_cancel_right hd)
  | cons x t ih =>
    simp only [List.cons_append] at h
    rw [joinSep_cons sep x (t ++ s1 :: suf) (by simp),
        joinSep_cons sep x (t ++ s2 :: suf) (by simp)] at h
    have hd := congrArg String.data h
    simp only [String.data_append, List.append_assoc] at hd
    have hj := List.append_cancel_left (List.append_cancel_left hd)
    exact ih (String.ext hj)

/-- `takeWhile` of everything before a separator character recovers the
separator-free chunk in front. -/
theorem takeWhile_until_comma (l1 l2 : List Char) (hl : ∀ c ∈ l1, c ≠ ',') :
    (l1 ++ ',' :: l2).takeWhile (fun c => c != ',') = l1 := by
  induction l1 with
  | nil => simp [List.takeWhile_cons]
  | cons c t ih =>
    have hc : (c != ',') = true := by
      simpa using hl c (List.mem_cons_self c t)
    simp only [List.cons_append, List.takeWhile_cons, hc, if_true]
    rw [ih (fun d hd => hl d (List.mem_cons_of_mem c hd))]

/-- Joining comma-free strings with commas is injective on lists of equal
length. -/
theorem joinComma_inj (l1 : List String) :
    ∀ l2 : List String,
      (∀ s ∈ l1, ∀ c ∈ s.data, c ≠ ',') →
      (∀ s ∈ l2, ∀ c ∈ s.data, c ≠ ',') →
      l1.length = l2.length →
      joinSep "," l1 = joinSep "," l2 → l1 = l2 := by
  induction l1 with
  | nil =>
    intro l2 _ _ hlen _
    cases l2 with
    | nil => rfl
    | cons y t => simp at hlen
  | cons x t1 ih =>
    intro l2 h1 h2 hlen hj
    cases l2 with
    | nil => simp at hlen
    | cons y t2 =>
      cases t1 with
      | nil =>
        cases t2 with
        | nil =>
          have hxy : x = y := hj
          rw [hxy]
        | cons b t2b => simp at hlen
      | cons a t1b =>
        cases t2 with
        | nil => simp at hlen
        | cons b t2b =>
          rw [joinSep_cons "," x (a :: t1b) (by simp),
              joinSep_cons "," y (b :: t2b) (by simp)] at hj
          have hd := congrArg String.data hj
          simp only [String.data_append, List.append_assoc] at hd
          simp only [show (",".data : List Char) = [','] from rfl,
            List.singleton_append] at hd
          have hx : x.data = y.data := by
            have hL := takeWhile_until_comma x.data (joinSep "," (a :: t1b)).data
              (fun c hc => h1 x (List.mem_cons_self x (a :: t1b)) c hc)
            have hR := takeWhile_until_comma y.data (joinSep "," (b :: t2b)).data
              (fun c hc => h2 y (List.mem_cons_self y (b :: t2b)) c hc)
            rw [← hL, ← hR, hd]
          have hxy : x = y := String.ext hx
          subst hxy
          have hcons := List.append_cancel_left hd
          have htl : joinSep "," (a :: t1b) = joinSep "," (b :: t2b) :=
            String.ext (List.tail_eq_of_cons_eq hcons)
          have hrec := ih (b :: t2b)
            (fun s hs c hc => h1 s (List.mem_cons_of_mem x hs) c hc)
            (fun s hs c hc => h2 s (List.mem_cons_of_mem x hs) c hc)
            (by simpa using hlen) htl
          rw [hrec]

/-- Swapping two distinct elements changes a list. -/
theorem swap_list_ne (pre mid suf : List String) (a b : String) (hab : a ≠ b) :
    pre ++ a :: mid ++ b :: suf ≠ pre ++ b :: mid ++ a :: suf := by
  induction pre with
  | nil =>
    intro h
    simp only [List.nil_append] at h
    exact hab (List.head_eq_of_cons_eq h)
  | cons x t ih =>
    intro h
    simp only [List.cons_append] at h
    exact ih (List.tail_eq_of_cons_eq h)

/-- The comma-joined scope string occupies one fixed slot of the field
list, and the surrounding fields do not depend on the scope list. -/
theorem buildDeviceAuthFields_scopes_slot (p : DeviceAuthParams) :
    ∃ preF sufF : List String,
      ∀ sc : List String,
        buildDeviceAuthFields { p with scopes := sc } = preF ++ joinSep "," sc :: sufF := by
  by_cases hv : jsTruthyStr p.nonce = true
  · refine ⟨["v2", p.deviceId, p.clientId, p.clientMode, p.role],
      [toString p.signedAtMs, p.token.getD "", p.nonce.getD ""], ?_⟩
    intro sc
    simp [buildDeviceAuthFields, hv]
  · refine ⟨["v1", p.deviceId, p.clientId, p.clientMode, p.role],
      [toString p.signedAtMs, p.token.getD ""], ?_⟩
    intro sc
    simp [buildDeviceAuthFields, Bool.of_not_eq_true hv]

/-- An accepted record determines the returned identity: the deviceId is
the recomputed fingerprint of the stored public key, and the key fields
are returned verbatim. -/
theorem loadIdentity_content {parsed : Json} {id : DeviceIdentity}
    (h : loadIdentity (.content parsed) = some id) :
    fingerprintJson ((jsonLookup parsed "publicKeyPem").getD .null) = some id.deviceId ∧
      id.publicKeyPem = (jsonLookup parsed "publicKeyPem").getD .null ∧
      id.privateKeyPem = (jsonLookup parsed "privateKeyPem").getD .null := by
  simp only [loadIdentity] at h
  split at h
  · split at h
    · rename_i derivedId heq
      cases Option.some.inj h
      exact ⟨heq, rfl, rfl⟩
    · exact Option.noConfusion h
  · exact Option.noConfusion h

/-- Every identity the load phase accepts carries a deviceId that is the
fingerprint of its own public-key field. -/
theorem loadIdentity_fingerprint {fs : FileState} {id : DeviceIdentity}
    (h : loadIdentity fs = some id) :
    fingerprintJson id.publicKeyPem = some id.deviceId := by
  cases fs with
  | content parsed =>
    obtain ⟨hfp, hpk, _⟩ := loadIdentity_content h
    rw [hpk]
    exact hfp
  | absent => exact Option.noConfusion h
  | unreadable => exact Option.noConfusion h
  | invalidJson => exact Option.noConfusion h

/-- When the load phase fails and the filesystem cooperates, the create
path returns the freshly generated identity and records the write. -/
theorem loadOrCreate_create_path {w : World} {fp : String}
    (hl : loadIdentity w.file = none)
    (hg : fingerprintPublicKey w.genPublicKeyPem = some fp)
    (hm : w.mkdirOk = true) (hw : w.writeOk = true) :
    loadOrCreateDeviceIdentity w =
      .ok (⟨fp, .str w.genPublicKeyPem, .str w.genPrivateKeyPem⟩,
        { w with
            file := .content (storedRecord
              ⟨fp, .str w.genPublicKeyPem, .str w.genPrivateKeyPem⟩ w.nowMs),
            written := some ⟨jsonStringify2 (storedRecord
              ⟨fp, .str w.genPublicKeyPem, .str w.genPrivateKeyPem⟩ w.nowMs) ++ "\n",
              0o600⟩ }) := by
  unfold loadOrCreateDeviceIdentity generateIdentity
  rw [hl, hg, hm, hw]
  simp

/-- When the load phase accepts, the loader returns the loaded identity
and leaves the world unchanged. -/
theorem loadOrCreate_of_load_some {w : World} {id : DeviceIdentity}
    (h : loadIdentity w.file = some id) :
    loadOrCreateDeviceIdentity w = .ok (id, w) := by
  unfold loadOrCreateDeviceIdentity
  rw [h]

/-- The load phase accepts a record the create path just stored and
returns exactly the identity it was built from. -/
theorem loadIdentity_storedRecord {pub priv fp : String} (now : Int)
    (hfp : fingerprintPublicKey pub = some fp) (hpriv : priv ≠ "") :
    loadIdentity (.content (storedRecord ⟨fp, .str pub, .str priv⟩ now)) =
      some ⟨fp, .str pub, .str priv⟩ := by
  have hfp_ne : fp ≠ "" := fingerprintPublicKey_ne_empty hfp
  have hpub_ne : pub ≠ "" := by
    intro he
    rw [he, fingerprintPublicKey_empty] at hfp
    exact Option.noConfusion hfp
  have h1 : jsonLookup (storedRecord ⟨fp, .str pub, .str priv⟩ now) "version" =
      some (.num 1) := rfl
  have h2 : jsonLookup (storedRecord ⟨fp, .str pub, .str priv⟩ now) "deviceId" =
      some (.str fp) := rfl
  have h3 : jsonLookup (storedRecord ⟨fp, .str pub, .str priv⟩ now) "publicKeyPem" =
      some (.str pub) := rfl
  have h4 : jsonLookup (storedRecord ⟨fp, .str pub, .str priv⟩ now) "privateKeyPem" =
      some (.str priv) := rfl
  simp only [loadIdentity, h1, h2, h3, h4]
  simp [jsTruthyOpt, jsTruthy, hfp_ne, hpub_ne, hpriv, fingerprintJson, hfp]

/-! ## Claim theorems -/

/-- C1: every `DeviceIdentity` that `loadOrCreateDeviceIdentity` returns
— freshly generated or loaded from an accepted record — carries a
deviceId equal to the lowercase-hex SHA-256 fingerprint recomputed from
the returned public key; and for an accepted record whose stored
`deviceId` differs from the recomputed fingerprint of the stored public
key (a tampered record), the returned deviceId is never the stored
value. -/
theorem loadOrCreate_deviceId_recomputed :
    (∀ (w : World) (r : DeviceIdentity) (w2 : World),
        loadOrCreateDeviceIdentity w = .ok (r, w2) →
        fingerprintJson r.publicKeyPem = some r.deviceId) ∧
    ∀ (parsed : Json) (r : DeviceIdentity) (storedId : String),
      loadIdentity (.content parsed) = some r →
      jsonLookup parsed "deviceId" = some (.str storedId) →
      fingerprintJson ((jsonLookup parsed "publicKeyPem").getD .null) ≠ some storedId →
      r.deviceId ≠ storedId := by
  constructor
  · intro w r w2 h
    unfold loadOrCreateDeviceIdentity at h
    cases hl : loadIdentity w.file with
    | some id =>
      rw [hl] at h
      have hp := Except.ok.inj h
      have hr : id = r := congrArg Prod.fst hp
      rw [← hr]
      exact loadIdentity_fingerprint hl
    | none =>
      rw [hl] at h
      unfold generateIdentity at h
      cases hg : fingerprintPublicKey w.genPublicKeyPem with
      | none => rw [hg] at h; exact Except.noConfusion h
      | some fp =>
        rw [hg] at h
        by_cases hm : w.mkdirOk = true
        · by_cases hw : w.writeOk = true
          · rw [hm, hw] at h
            simp only [if_true] at h
            have hp := Except.ok.inj h
            have hr : (⟨fp, .str w.genPublicKeyPem, .str w.genPrivateKeyPem⟩ :
                DeviceIdentity) = r := congrArg Prod.fst hp
            rw [← hr]
            exact hg
          · rw [hm, Bool.of_not_eq_true hw] at h
            simp only [if_true, if_false] at h
            exact Except.noConfusion h
        · rw [Bool.of_not_eq_true hm] at h
          simp only [if_false] at h
          exact Except.noConfusion h
  · intro parsed r storedId hload _ hne heq
    exact hne (heq ▸ (loadIdentity_content hload).1)

/-- C1 witness: the loader applied to the tampered sample record returns
the recomputed fingerprint of the untouched public key, not the stored
`TAMPERED` value. -/
theorem loadOrCreate_deviceId_recomputed_witness :
    fingerprintJson sampleIdentity.publicKeyPem = some sampleIdentity.deviceId ∧
      sampleIdentity.deviceId ≠ "TAMPERED" :=
  ⟨loadOrCreate_deviceId_recomputed.1 sampleTamperedWorld sampleIdentity
      sampleTamperedWorld (by rfl),
   loadOrCreate_deviceId_recomputed.2 sampleTamperedRecord sampleIdentity "TAMPERED"
      (by rfl) rfl (by decide)⟩

/-- C9: on the create path, after a key pair was successfully generated,
a directory-creation failure or a file-write failure is not absorbed: it
propagates to the caller as an error, unlike load-phase faults. -/
theorem loadOrCreate_write_failure_propagates :
    ∀ w : World, loadIdentity w.file = none →
      (fingerprintPublicKey w.genPublicKeyPem).isSome = true →
      (w.mkdirOk = false → loadOrCreateDeviceIdentity w = .error .mkdirFailed) ∧
      (w.mkdirOk = true → w.writeOk = false →
        loadOrCreateDeviceIdentity w = .error .writeFailed) := by
  intro w hl hg
  obtain ⟨fp, hfp⟩ := Option.isSome_iff_exists.mp hg
  constructor
  · intro hm
    unfold loadOrCreateDeviceIdentity generateIdentity
    rw [hl, hfp, hm]
    simp
  · intro hm hw
    unfold loadOrCreateDeviceIdentity generateIdentity
    rw [hl, hfp, hm, hw]
    simp

/-- C9 witness: both failure branches at concrete worlds. -/
theorem loadOrCreate_write_failure_propagates_witness :
    loadOrCreateDeviceIdentity
        ⟨.absent, samplePublicKeyPem, "PRIVATE-KEY-PEM", 0, false, true, none⟩ =
      .error .mkdirFailed ∧
    loadOrCreateDeviceIdentity
        ⟨.absent, samplePublicKeyPem, "PRIVATE-KEY-PEM", 0, true, false, none⟩ =
      .error .writeFailed :=
  ⟨(loadOrCreate_write_failure_propagates
      ⟨.absent, samplePublicKeyPem, "PRIVATE-KEY-PEM", 0, false, true, none⟩
      rfl (by decide)).1 rfl,
   (loadOrCreate_write_failure_propagates
      ⟨.absent, samplePublicKeyPem, "PRIVATE-KEY-PEM", 0, true, false, none⟩
      rfl (by decide)).2 rfl rfl⟩

/-- C5: every load-phase fault — missing file, unreadable file, invalid
JSON, a schema version other than 1, a missing required field, or
unparsable key material — is absorbed: the loader generates a fresh
identity, persists it, and returns it (given that generation and the
write succeed, cf. C9 for write faults). -/
theorem loadOrCreate_absorbs_load_faults :
    (∀ w : World, loadIdentity w.file = none →
        (fingerprintPublicKey w.genPublicKeyPem).isSome = true →
        w.mkdirOk = true → w.writeOk = true →
        ∃ id w2, loadOrCreateDeviceIdentity w = .ok (id, w2) ∧
          fingerprintPublicKey w.genPublicKeyPem = some id.deviceId ∧
          id.publicKeyPem = .str w.genPublicKeyPem ∧
          id.privateKeyPem = .str w.genPrivateKeyPem ∧
          w2.file = .content (storedRecord id w.nowMs) ∧
          w2.written = some ⟨jsonStringify2 (storedRecord id w.nowMs) ++ "\n", 0o600⟩) ∧
      loadIdentity .absent = none ∧
      loadIdentity .unreadable = none ∧
      loadIdentity .invalidJson = none ∧
      loadIdentity (.content (.obj [("version", .num 2), ("deviceId", .str "d"),
        ("publicKeyPem", .str "p"), ("privateKeyPem", .str "s")])) = none ∧
      loadIdentity (.content (.obj [("version", .num 1), ("deviceId", .str "d"),
        ("publicKeyPem", .str "p")])) = none ∧
      loadIdentity (.content (.obj [("version", .num 1), ("deviceId", .str "d"),
        ("publicKeyPem", .str "NOT-A-PEM"), ("privateKeyPem", .str "s")])) = none := by
  refine ⟨?_, rfl, rfl, rfl, rfl, rfl, rfl⟩
  intro w hl hg hm hw
  obtain ⟨fp, hfp⟩ := Option.isSome_iff_exists.mp hg
  exact ⟨_, _, loadOrCreate_create_path hl hfp hm hw, hfp, rfl, rfl, rfl, rfl⟩

/-- C5 witness: the absorbed-fault branch at the concrete first-run
world. -/
theorem loadOrCreate_absorbs_load_faults_witness :
    ∃ id w2, loadOrCreateDeviceIdentity sampleCreateWorld = .ok (id, w2) ∧
      fingerprintPublicKey sampleCreateWorld.genPublicKeyPem = some id.deviceId ∧
      id.publicKeyPem = .str sampleCreateWorld.genPublicKeyPem ∧
      id.privateKeyPem = .str sampleCreateWorld.genPrivateKeyPem ∧
      w2.file = .content (storedRecord id sampleCreateWorld.nowMs) ∧
      w2.written =
        some ⟨jsonStringify2 (storedRecord id sampleCreateWorld.nowMs) ++ "\n", 0o600⟩ :=
  loadOrCreate_absorbs_load_faults.1 sampleCreateWorld rfl (by decide) rfl rfl

/-- C6: after the create path persists a fresh identity, a second call
against the resulting (unmodified, valid) state returns the identical
identity and leaves the world untouched — no regeneration, no mutation
of the stored file. -/
theorem loadOrCreate_roundtrip_idempotent :
    ∀ (w : World) (id : DeviceIdentity) (w2 : World),
      loadIdentity w.file = none →
      w.genPrivateKeyPem ≠ "" →
      loadOrCreateDeviceIdentity w = .ok (id, w2) →
      loadOrCreateDeviceIdentity w2 = .ok (id, w2) := by
  intro w id w2 hl hpriv h
  unfold loadOrCreateDeviceIdentity generateIdentity at h
  rw [hl] at h
  cases hg : fingerprintPublicKey w.genPublicKeyPem with
  | none => rw [hg] at h; exact Except.noConfusion h
  | some fp =>
    rw [hg] at h
    by_cases hm : w.mkdirOk = true
    · by_cases hw : w.writeOk = true
      · rw [hm, hw] at h
        simp only [if_true] at h
        injection h with h1
        injection h1 with hid hw2
        subst hid
        subst hw2
        exact loadOrCreate_of_load_some (loadIdentity_storedRecord w.nowMs hg hpriv)
      · rw [hm, Bool.of_not_eq_true hw] at h
        simp only [if_true, if_false] at h
        exact Except.noConfusion h
    · rw [Bool.of_not_eq_true hm] at h
      simp only [if_false] at h
      exact Except.noConfusion h

/-- C6 witness: the second call on the world the first call produced
returns the same identity and world. -/
theorem loadOrCreate_roundtrip_idempotent_witness :
    loadOrCreateDeviceIdentity sampleCreatedPair.2 =
      .ok (sampleCreatedPair.1, sampleCreatedPair.2) :=
  loadOrCreate_roundtrip_idempotent sampleCreateWorld sampleCreatedPair.1
    sampleCreatedPair.2 rfl (by decide) (by rfl)

/-- C4 counterexample: the claim names the persisted fields `publicKey`,
`privateKey` and `createdAt` and says the loader accepts exactly when
`version == 1` and `deviceId`, `publicKey`, `privateKey` are present and
non-empty; the record actually stores `publicKeyPem`, `privateKeyPem`
and `createdAtMs`, and a version-1 record carrying non-empty `publicKey`
and `privateKey` fields (the claimed names) is rejected. -/
theorem storedRecord_fieldnames_counterexample :
    jsonLookup (storedRecord sampleIdentity 0) "publicKey" = none ∧
      jsonLookup (storedRecord sampleIdentity 0) "privateKey" = none ∧
      jsonLookup (storedRecord sampleIdentity 0) "createdAt" = none ∧
      jsonLookup (storedRecord sampleIdentity 0) "publicKeyPem" =
        some sampleIdentity.publicKeyPem ∧
      jsonLookup (storedRecord sampleIdentity 0) "privateKeyPem" =
        some sampleIdentity.privateKeyPem ∧
      jsonLookup (storedRecord sampleIdentity 0) "createdAtMs" = some (.num 0) ∧
      loadIdentity (.content (.obj [("version", .num 1), ("deviceId", .str "d"),
        ("publicKey", .str samplePublicKeyPem),
        ("privateKey", .str samplePublicKeyPem)])) = none :=
  ⟨rfl, rfl, rfl, rfl, rfl, rfl, rfl⟩

/-- C4 amended: the persisted record is the serialized JSON document
with a trailing newline, written at file mode `0o600`, whose fields are
`version` (integer 1), `deviceId` (64 lowercase hex characters),
`publicKeyPem`, `privateKeyPem` and `createdAtMs` (epoch milliseconds);
and the load phase accepts a record exactly when `version == 1`, the
three fields `deviceId`, `publicKeyPem`, `privateKeyPem` are truthy
(present and non-empty), and the stored `publicKeyPem` is key material
whose fingerprint can be computed. -/
theorem storedRecord_schema_amended :
    (∀ (w : World) (id : DeviceIdentity) (w2 : World),
        loadIdentity w.file = none →
        loadOrCreateDeviceIdentity w = .ok (id, w2) →
        w2.written = some ⟨jsonStringify2 (storedRecord id w.nowMs) ++ "\n", 0o600⟩ ∧
        jsonLookup (storedRecord id w.nowMs) "version" = some (.num 1) ∧
        jsonLookup (storedRecord id w.nowMs) "deviceId" = some (.str id.deviceId) ∧
        jsonLookup (storedRecord id w.nowMs) "publicKeyPem" = some id.publicKeyPem ∧
        jsonLookup (storedRecord id w.nowMs) "privateKeyPem" = some id.privateKeyPem ∧
        jsonLookup (storedRecord id w.nowMs) "createdAtMs" = some (.num w.nowMs) ∧
        id.deviceId.length = 64 ∧
        ∀ c ∈ id.deviceId.data, isHexLowerDigit c = true) ∧
    ∀ parsed : Json,
      (loadIdentity (.content parsed)).isSome =
        ((match jsonLookup parsed "version" with
          | some (.num n) => n == 1
          | _ => false) &&
         jsTruthyOpt (jsonLookup parsed "deviceId") &&
         jsTruthyOpt (jsonLookup parsed "publicKeyPem") &&
         jsTruthyOpt (jsonLookup parsed "privateKeyPem") &&
         (fingerprintJson ((jsonLookup parsed "publicKeyPem").getD .null)).isSome) := by
  constructor
  · intro w id w2 hl h
    unfold loadOrCreateDeviceIdentity generateIdentity at h
    rw [hl] at h
    cases hg : fingerprintPublicKey w.genPublicKeyPem with
    | none => rw [hg] at h; exact Except.noConfusion h
    | some fp =>
      rw [hg] at h
      by_cases hm : w.mkdirOk = true
      · by_cases hw : w.writeOk = true
        · rw [hm, hw] at h
          simp only [if_true] at h
          injection h with h1
          injection h1 with hid hw2
          subst hid
          subst hw2
          exact ⟨rfl, rfl, rfl, rfl, rfl, rfl,
            fingerprintPublicKey_length hg, fingerprintPublicKey_chars hg⟩
        · rw [hm, Bool.of_not_eq_true hw] at h
          simp only [if_true, if_false] at h
          exact Except.noConfusion h
      · rw [Bool.of_not_eq_true hm] at h
        simp only [if_false] at h
        exact Except.noConfusion h
  · intro parsed
    simp only [loadIdentity]
    by_cases hc : ((match jsonLookup parsed "version" with
        | some (.num n) => n == 1
        | _ => false) &&
       jsTruthyOpt (jsonLookup parsed "deviceId") &&
       jsTruthyOpt (jsonLookup parsed "publicKeyPem") &&
       jsTruthyOpt (jsonLookup parsed "privateKeyPem")) = true
    · rw [hc]
      simp only [if_true, Bool.true_and]
      cases hfp : fingerprintJson ((jsonLookup parsed "publicKeyPem").getD .null) <;>
        simp [hfp]
    · rw [Bool.of_not_eq_true hc]
      simp

/-- C4 amended witness: the write-path facts at the concrete first-run
world, and the acceptance characterization at the tampered record. -/
theorem storedRecord_schema_amended_witness :
    (sampleCreatedPair.2.written =
        some ⟨jsonStringify2 (storedRecord sampleCreatedPair.1 sampleCreateWorld.nowMs) ++
          "\n", 0o600⟩ ∧
      jsonLookup (storedRecord sampleCreatedPair.1 sampleCreateWorld.nowMs) "version" =
        some (.num 1) ∧
      jsonLookup (storedRecord sampleCreatedPair.1 sampleCreateWorld.nowMs) "deviceId" =
        some (.str sampleCreatedPair.1.deviceId) ∧
      jsonLookup (storedRecord sampleCreatedPair.1 sampleCreateWorld.nowMs)
        "publicKeyPem" = some sampleCreatedPair.1.publicKeyPem ∧
      jsonLookup (storedRecord sampleCreatedPair.1 sampleCreateWorld.nowMs)
        "privateKeyPem" = some sampleCreatedPair.1.privateKeyPem ∧
      jsonLookup (storedRecord sampleCreatedPair.1 sampleCreateWorld.nowMs)
        "createdAtMs" = some (.num sampleCreateWorld.nowMs) ∧
      sampleCreatedPair.1.deviceId.length = 64 ∧
      ∀ c ∈ sampleCreatedPair.1.deviceId.data, isHexLowerDigit c = true) ∧
    (loadIdentity (.content sampleTamperedRecord)).isSome =
      ((match jsonLookup sampleTamperedRecord "version" with
        | some (.num n) => n == 1
        | _ => false) &&
       jsTruthyOpt (jsonLookup sampleTamperedRecord "deviceId") &&
       jsTruthyOpt (jsonLookup sampleTamperedRecord "publicKeyPem") &&
       jsTruthyOpt (jsonLookup sampleTamperedRecord "privateKeyPem") &&
       (fingerprintJson ((jsonLookup sampleTamperedRecord "publicKeyPem").getD
         .null)).isSome) :=
  ⟨storedRecord_schema_amended.1 sampleCreateWorld sampleCreatedPair.1
      sampleCreatedPair.2 rfl (by rfl),
   storedRecord_schema_amended.2 sampleTamperedRecord⟩

/-- C7: `buildDeviceAuthPayload` on the documented example yields exactly
`v1|abc|c1|cli|admin|read,write|1700000000000|`, and in general a null
token is encoded as an empty field in the same position, never by
omitting the field: the field list with a null token equals the field
list with an explicit empty-string token. -/
theorem buildDeviceAuthPayload_example_null_token :
    buildDeviceAuthPayload
        ⟨"abc", "c1", "cli", "admin", ["read", "write"], 1700000000000, none, none⟩ =
      "v1|abc|c1|cli|admin|read,write|1700000000000|" ∧
    ∀ params : DeviceAuthParams, params.token = none →
      buildDeviceAuthFields params = buildDeviceAuthFields { params with token := some "" } := by
  refine ⟨rfl, ?_⟩
  intro p h
  simp [buildDeviceAuthFields, h]

/-- C7 witness: the null-token equation applied at a concrete parameter
record. -/
theorem buildDeviceAuthPayload_example_null_token_witness :
    buildDeviceAuthFields ⟨"d", "c", "m", "r", [], 0, none, none⟩ =
      buildDeviceAuthFields ⟨"d", "c", "m", "r", [], 0, some "", none⟩ :=
  buildDeviceAuthPayload_example_null_token.2 ⟨"d", "c", "m", "r", [], 0, none, none⟩ rfl

/-- C10: `buildDeviceAuthPayload` is not injective: the scope lists
`[a,b]` (one scope containing a comma) and `[a], [b]` (two scopes) are
distinct parameter sets yet produce the identical payload string. -/
theorem buildDeviceAuthPayload_collision :
    (⟨"abc", "c1", "cli", "admin", ["a,b"], 0, none, none⟩ : DeviceAuthParams) ≠
        ⟨"abc", "c1", "cli", "admin", ["a", "b"], 0, none, none⟩ ∧
      buildDeviceAuthPayload ⟨"abc", "c1", "cli", "admin", ["a,b"], 0, none, none⟩ =
        buildDeviceAuthPayload ⟨"abc", "c1", "cli", "admin", ["a", "b"], 0, none, none⟩ :=
  ⟨by decide, rfl⟩

/-- C8 counterexample: the two parameter sets below differ only by
swapping the two distinct scopes `a` and `a,a`, yet they produce the
identical payload string, because scopes are comma-joined into one field
(`a,a,a` both ways); so swapping two distinct scopes does not always
change the payload. -/
theorem buildDeviceAuthPayload_swap_collision :
    ("a" : String) ≠ "a,a" ∧
      (⟨"d", "c", "m", "r", ["a", "a,a"], 0, none, none⟩ : DeviceAuthParams) ≠
        ⟨"d", "c", "m", "r", ["a,a", "a"], 0, none, none⟩ ∧
      buildDeviceAuthPayload ⟨"d", "c", "m", "r", ["a", "a,a"], 0, none, none⟩ =
        buildDeviceAuthPayload ⟨"d", "c", "m", "r", ["a,a", "a"], 0, none, none⟩ :=
  ⟨by decide, by decide, rfl⟩

/-- C8 amended: `buildDeviceAuthPayload` is a pure deterministic function
(identical arguments give identical strings), and for every scope list
whose scopes do not contain the comma separator, swapping two distinct
scopes yields a different payload string; scope order is preserved in the
signed bytes. (Unrestricted, the property fails: scopes containing commas
can collide, see the counterexample.) -/
theorem buildDeviceAuthPayload_deterministic_swap :
    (∀ p q : DeviceAuthParams, p = q →
        buildDeviceAuthPayload p = buildDeviceAuthPayload q) ∧
    ∀ (p : DeviceAuthParams) (pre mid suf : List String) (a b : String),
      p.scopes = pre ++ a :: mid ++ b :: suf →
      (∀ s ∈ p.scopes, ∀ c ∈ s.data, c ≠ ',') →
      a ≠ b →
      buildDeviceAuthPayload { p with scopes := pre ++ b :: mid ++ a :: suf } ≠
        buildDeviceAuthPayload p := by
  refine ⟨fun p q h => congrArg buildDeviceAuthPayload h, ?_⟩
  intro p pre mid suf a b hsc hfree hab hcontra
  obtain ⟨preF, sufF, hslot⟩ := buildDeviceAuthFields_scopes_slot p
  have hp : buildDeviceAuthFields p = preF ++ joinSep "," p.scopes :: sufF := by
    have := hslot p.scopes
    simpa using this
  have hq : buildDeviceAuthFields { p with scopes := pre ++ b :: mid ++ a :: suf } =
      preF ++ joinSep "," (pre ++ b :: mid ++ a :: suf) :: sufF := hslot _
  unfold buildDeviceAuthPayload at hcontra
  rw [hp, hq] at hcontra
  have hjoins := joinSep_middle_inj "|" preF _ _ sufF hcontra
  have hlists : (pre ++ b :: mid ++ a :: suf) = p.scopes := by
    refine joinComma_inj _ _ ?_ hfree ?_ hjoins
    · intro s hs c hc
      refine hfree s ?_ c hc
      rw [hsc]
      simp only [List.mem_append, List.mem_cons] at hs ⊢
      tauto
    · rw [hsc]; simp
  rw [hsc] at hlists
  exact swap_list_ne pre mid suf a b hab hlists.symm

/-- C8 amended witness: determinism and the swap property at concrete
parameters with comma-free scopes. -/
theorem buildDeviceAuthPayload_deterministic_swap_witness :
    buildDeviceAuthPayload ⟨"d", "c", "m", "r", ["read", "write"], 0, none, none⟩ =
        buildDeviceAuthPayload ⟨"d", "c", "m", "r", ["read", "write"], 0, none, none⟩ ∧
      buildDeviceAuthPayload ⟨"d", "c", "m", "r", ["write", "read"], 0, none, none⟩ ≠
        buildDeviceAuthPayload ⟨"d", "c", "m", "r", ["read", "write"], 0, none, none⟩ :=
  ⟨buildDeviceAuthPayload_deterministic_swap.1 _ _ rfl,
   buildDeviceAuthPayload_deterministic_swap.2
     ⟨"d", "c", "m", "r", ["read", "write"], 0, none, none⟩ [] [] [] "read" "write"
     rfl (by decide) (by decide)⟩

/-- C2 counterexample: the claim says any decoded byte string that is
neither the wrapped form (claimed as a 15-byte header plus 32 key bytes,
47 bytes total) nor bare 32 bytes fails loudly and that the output is
always exactly 32 bytes; the code instead returns the buffer unchanged:
a 47-byte buffer comes back as all 47 bytes and a 3-byte buffer comes
back as all 3 bytes, with no error. -/
theorem derivePublicKeyRaw_returns_nonkey_bytes :
    derivePublicKeyRawSpki (List.replicate 47 0) = List.replicate 47 0 ∧
      (derivePublicKeyRawSpki (List.replicate 47 0)).length = 47 ∧
      derivePublicKeyRawSpki [1, 2, 3] = [1, 2, 3] := by
  decide

/-- C2 amended: the wrapped form is a 12-byte header (not 15) plus the 32
key bytes; exactly that form is stripped to the inner 32 bytes, and every
other decoded byte string (the bare 32-byte form included) is returned
unchanged, without any failure. -/
theorem derivePublicKeyRawSpki_amended :
    (∀ spki : List Nat,
        spki.length = ED25519_SPKI_HEADER.length + 32 →
        spki.take ED25519_SPKI_HEADER.length = ED25519_SPKI_HEADER →
        derivePublicKeyRawSpki spki = spki.drop ED25519_SPKI_HEADER.length ∧
          (derivePublicKeyRawSpki spki).length = 32) ∧
    ∀ spki : List Nat,
      ¬(spki.length = ED25519_SPKI_HEADER.length + 32 ∧
        spki.take ED25519_SPKI_HEADER.length = ED25519_SPKI_HEADER) →
      derivePublicKeyRawSpki spki = spki := by
  constructor
  · intro spki h1 h2
    have he : derivePublicKeyRawSpki spki = spki.drop ED25519_SPKI_HEADER.length := by
      unfold derivePublicKeyRawSpki
      rw [if_pos ⟨h1, h2⟩]
    refine ⟨he, ?_⟩
    rw [he, List.length_drop, h1]
    rfl
  · intro spki h
    unfold derivePublicKeyRawSpki
    rw [if_neg h]

/-- C2 amended witness: both branches evaluated at concrete buffers. -/
theorem derivePublicKeyRawSpki_amended_witness :
    (derivePublicKeyRawSpki (ED25519_SPKI_HEADER ++ List.replicate 32 7) =
        (ED25519_SPKI_HEADER ++ List.replicate 32 7).drop ED25519_SPKI_HEADER.length ∧
      (derivePublicKeyRawSpki (ED25519_SPKI_HEADER ++ List.replicate 32 7)).length = 32) ∧
    derivePublicKeyRawSpki [9] = [9] :=
  ⟨derivePublicKeyRawSpki_amended.1 (ED25519_SPKI_HEADER ++ List.replicate 32 7)
      (by decide) (by decide),
   derivePublicKeyRawSpki_amended.2 [9] (by decide)⟩

/-- C3 counterexample: a nonce parameter that is supplied but empty is
falsy in JavaScript, so the payload begins with `v1|` and has no extra
field, refuting the claim that every supplied nonce yields a `v2|`
payload with one extra trailing field. -/
theorem buildDeviceAuthPayload_empty_nonce :
    (⟨"d", "c", "m", "r", [], 0, none, some ""⟩ : DeviceAuthParams).nonce = some "" ∧
      buildDeviceAuthPayload ⟨"d", "c", "m", "r", [], 0, none, some ""⟩ = "v1|d|c|m|r||0|" ∧
      (buildDeviceAuthPayload ⟨"d", "c", "m", "r", [], 0, none, some ""⟩).data.take 3 =
        ['v', '1', '|'] ∧
      (buildDeviceAuthFields ⟨"d", "c", "m", "r", [], 0, none, some ""⟩).length = 8 :=
  ⟨rfl, rfl, rfl, rfl⟩

/-- C3 amended: supplying a non-empty nonce yields a payload beginning
with `v2|` and the nonce appended as one extra trailing field (9 fields);
omitting the nonce — or supplying an empty one, which JavaScript
truthiness treats as absent — yields a payload beginning with `v1|` with
one fewer field (8 fields). -/
theorem buildDeviceAuthPayload_versioning :
    (∀ (params : DeviceAuthParams) (s : String), params.nonce = some s → s ≠ "" →
        (buildDeviceAuthPayload params).data.take 3 = ['v', '2', '|'] ∧
        (buildDeviceAuthFields params).length = 9 ∧
        (buildDeviceAuthFields params).getLast? = some s) ∧
    ∀ params : DeviceAuthParams, jsTruthyStr params.nonce = false →
      (buildDeviceAuthPayload params).data.take 3 = ['v', '1', '|'] ∧
      (buildDeviceAuthFields params).length = 8 := by
  constructor
  · intro p s hn hs
    have hf : buildDeviceAuthFields p =
        ["v2", p.deviceId, p.clientId, p.clientMode, p.role, joinSep "," p.scopes,
         toString p.signedAtMs, p.token.getD "", s] := by
      simp [buildDeviceAuthFields, jsTruthyStr, hn, hs]
    refine ⟨?_, ?_, ?_⟩
    · show (joinSep "|" (buildDeviceAuthFields p)).data.take 3 = _
      rw [hf]; rfl
    · rw [hf]
      rfl
    · rw [hf]
      rfl
  · intro p hn
    have hf : buildDeviceAuthFields p =
        ["v1", p.deviceId, p.clientId, p.clientMode, p.role, joinSep "," p.scopes,
         toString p.signedAtMs, p.token.getD ""] := by
      simp [buildDeviceAuthFields, hn]
    refine ⟨?_, ?_⟩
    · show (joinSep "|" (buildDeviceAuthFields p)).data.take 3 = _
      rw [hf]; rfl
    · rw [hf]
      rfl

/-- C3 amended witness: both versioning branches at concrete
parameters. -/
theorem buildDeviceAuthPayload_versioning_witness :
    ((buildDeviceAuthPayload ⟨"d", "c", "m", "r", [], 0, none, some "n0"⟩).data.take 3 =
        ['v', '2', '|'] ∧
      (buildDeviceAuthFields ⟨"d", "c", "m", "r", [], 0, none, some "n0"⟩).length = 9 ∧
      (buildDeviceAuthFields ⟨"d", "c", "m", "r", [], 0, none, some "n0"⟩).getLast? =
        some "n0") ∧
    (buildDeviceAuthPayload ⟨"d", "c", "m", "r", [], 0, none, none⟩).data.take 3 =
        ['v', '1', '|'] ∧
      (buildDeviceAuthFields ⟨"d", "c", "m", "r", [], 0, none, none⟩).length = 8 :=
  ⟨buildDeviceAuthPayload_versioning.1 ⟨"d", "c", "m", "r", [], 0, none, some "n0"⟩ "n0"
      rfl (by decide),
   buildDeviceAuthPayload_versioning.2 ⟨"d", "c", "m", "r", [], 0, none, none⟩ rfl⟩
